import Mathlib

/-!
Verification development for the invoice-parser service (src/index.ts).

The TypeScript source is shallowly embedded as follows.

* JavaScript numbers are modelled as `JSNum`: either `nan` or an exact
  rational value.  Double rounding and double-to-string formatting are not
  modelled; every place where the pipeline converts a number to a string
  either renders an integer (row indices produced by parseInt) or renders
  NaN, and only the NaN rendering ("NaN") is relied on by any theorem.
* JavaScript runtime values that flow through the pipeline are modelled as
  `JsValue`: a string, a number, an array of strings (the validationErrors
  list), or `undefined`.
* A JavaScript object is modelled as an association list `Obj` in key
  insertion order.  `objGet` returns `undefined` for an absent key, as
  property access does; `objSet` overwrites in place when the key exists
  and appends otherwise, matching the insertion-order semantics of
  property assignment.
* The decoded spreadsheet (`File` in the source) is the same association
  list type: cell index string (for example "A1") to cell value.
* Code that can throw is modelled in `Except String`, the error string
  being the thrown message; an access that would raise a TypeError at
  runtime is modelled as the error "TypeError".
-/

inductive JSNum where
  | nan
  | val (q : Rat)
deriving DecidableEq, Repr

inductive JsValue where
  | str (s : String)
  | num (n : JSNum)
  | arr (xs : List String)
  | undef
deriving DecidableEq, Repr

abbrev Obj := List (String × JsValue)

abbrev File := List (String × JsValue)

/-- Property read `o[k]`: the value stored at the first occurrence of the
key, or `undefined` when the key is absent. -/
def objGet (o : Obj) (k : String) : JsValue :=
  match o.find? (fun p => p.1 == k) with
  | some p => p.2
  | none => JsValue.undef

/-- Property write `o[k] = v`: updates the existing entry in place when the
key is present (JavaScript keeps the original insertion position), and
appends a new entry otherwise. -/
def objSet (o : Obj) (k : String) (v : JsValue) : Obj :=
  if o.any (fun p => p.1 == k) then
    o.map (fun p => if p.1 == k then (k, v) else p)
  else o ++ [(k, v)]

def objKeys (o : Obj) : List String := o.map (fun p => p.1)

/-- JavaScript truthiness of a value. -/
def truthy (v : JsValue) : Bool :=
  match v with
  | .str s => !(s == "")
  | .num .nan => false
  | .num (.val q) => !(q == 0)
  | .arr _ => true
  | .undef => false

/-- Strict equality `v === s` of a runtime value against a string literal:
true exactly for an equal string, false for every other runtime type. -/
def valueEqStr (v : JsValue) (s : String) : Bool :=
  match v with
  | .str t => t == s
  | _ => false

/-- Number-to-string conversion.  `NaN` renders as "NaN" and integral
values render as their decimal digits, both as in JavaScript.  The
non-integral case abstracts double formatting by the exact rational
representation; no value observed by a theorem takes that branch. -/
def jsNumToStr (n : JSNum) : String :=
  match n with
  | .nan => "NaN"
  | .val q => if q.den == 1 then toString q.num else toString q

/-- The ToString coercion JavaScript applies in template literals,
property keys, and parseInt/parseFloat arguments. -/
def jsToString (v : JsValue) : String :=
  match v with
  | .str s => s
  | .num n => jsNumToStr n
  | .arr xs => String.intercalate "," xs
  | .undef => "undefined"

def digitsToNat (cs : List Char) : Nat :=
  cs.foldl (fun n c => n * 10 + (c.toNat - 48)) 0

def isWs (c : Char) : Bool :=
  c == ' ' || c == '\t' || c == '\n' || c == '\r'

/-- Structural prefix test on character lists (first argument is the
candidate leading segment). -/
def listStartsWith : List Char → List Char → Bool
  | [], _ => true
  | _ :: _, [] => false
  | a :: as, b :: bs => a == b && listStartsWith as bs

/-- `String.startsWith`, computed structurally on the character lists. -/
def strStartsWith (s lead : String) : Bool :=
  listStartsWith lead.data s.data

/-- `String.endsWith`, computed structurally on the reversed character
lists. -/
def strEndsWith (s trail : String) : Bool :=
  listStartsWith trail.data.reverse s.data.reverse

/-- Structural occurrence test of one character list inside another. -/
def listHasSub (sub : List Char) : List Char → Bool
  | [] => sub.isEmpty
  | x :: rest => listStartsWith sub (x :: rest) || listHasSub sub rest

/-- Split on a single separator character, matching JavaScript
`split(" ")`: every separator occurrence cuts, and empty segments are
kept. -/
def splitOnChar (c : Char) : List Char → List (List Char)
  | [] => [[]]
  | x :: rest =>
    if x == c then [] :: splitOnChar c rest
    else (x :: (splitOnChar c rest).headD []) :: (splitOnChar c rest).tail

/-- The JavaScript `split(" ")` used by the source, as a list of
strings. -/
def jsSplitOnSpace (s : String) : List String :=
  (splitOnChar ' ' s.data).map (fun cs => String.mk cs)

/-- `parseInt` on a string (radix 10): skip leading whitespace, optional
sign, then the longest run of decimal digits; NaN when there is no digit.
The hexadecimal "0x" form is not modelled; no input in this development
uses it. -/
def parseIntStr (s : String) : JSNum :=
  let cs := s.data.dropWhile isWs
  let signed : Bool × List Char :=
    match cs with
    | '-' :: rest => (true, rest)
    | '+' :: rest => (false, rest)
    | _ => (false, cs)
  let ds := signed.2.takeWhile (fun c => c.isDigit)
  if ds.isEmpty then JSNum.nan
  else if signed.1 then JSNum.val (-((digitsToNat ds : Int) : Rat))
  else JSNum.val ((digitsToNat ds : Nat) : Rat)

/-- `parseFloat` on a string: skip leading whitespace, optional sign, then
a decimal literal `digits [. digits]`; NaN when no digit is found.  The
exponent and Infinity forms are not modelled; no input in this development
uses them. -/
def parseFloatStr (s : String) : JSNum :=
  let cs := s.data.dropWhile isWs
  let signed : Bool × List Char :=
    match cs with
    | '-' :: rest => (true, rest)
    | '+' :: rest => (false, rest)
    | _ => (false, cs)
  let intDs := signed.2.takeWhile (fun c => c.isDigit)
  let rest1 := signed.2.drop intDs.length
  let fracDs :=
    match rest1 with
    | '.' :: r => r.takeWhile (fun c => c.isDigit)
    | _ => []
  if intDs.isEmpty && fracDs.isEmpty then JSNum.nan
  else
    let mag : Rat :=
      (digitsToNat intDs : Nat) + ((digitsToNat fracDs : Nat) : Rat) / ((10 : Rat) ^ fracDs.length)
    if signed.1 then JSNum.val (-mag) else JSNum.val mag

/-- Strict equality of two JavaScript numbers: false whenever either side
is NaN. -/
def jsNumEq (a b : JSNum) : Bool :=
  match a, b with
  | .val x, .val y => x == y
  | _, _ => false

/-- The `>` comparison on two JavaScript numbers: false whenever either
side is NaN. -/
def jsNumGt (a b : JSNum) : Bool :=
  match a, b with
  | .val x, .val y => decide (y < x)
  | _, _ => false

/-- Multiplication of JavaScript numbers; NaN is absorbing. -/
def jsMul (a b : JSNum) : JSNum :=
  match a, b with
  | .val x, .val y => .val (x * y)
  | _, _ => .nan

/-! Embedding of the constants of src/index.ts. -/

def mandatoryFields : List String :=
  ["Customer", "Cust No\x27", "Project Type",
   "Quantity", "Price Per Item", "Item Price Currency",
   "Total Price", "Invoice Currency", "Status"]

def columnLetters : List Char :=
  ['A', 'B', 'C', 'D', 'E', 'F', 'G', 'H', 'I', 'J',
   'K', 'L', 'M', 'N', 'O', 'P', 'Q', 'R', 'S', 'T',
   'U', 'V', 'W', 'X', 'Y', 'Z']

/-- The per-field validation rules of `invoiceDataFormat` (zod schemas),
modelled as the list of issue messages `safeParse` produces for a given
raw cell value; the empty list means the value passes.  Message texts are
zod-style; only their presence or absence is relied on by any theorem.
An undefined cell value fails every rule with "Required", as in zod. -/
def zodCheck (field : String) (v : JsValue) : List String :=
  match field with
  | "Customer" =>
    (match v with
     | .str _ => []
     | .undef => ["Required"]
     | .num _ => ["Expected string, received number"]
     | .arr _ => ["Expected string, received array"])
  | "Cust No\x27" =>
    (match v with
     | .num (.val q) =>
       (if q.den == 1 then [] else ["Expected integer, received float"]) ++
       (if q < 10000 then ["Number must be greater than or equal to 10000"] else []) ++
       (if 99999 < q then ["Number must be less than or equal to 99999"] else [])
     | .num .nan => ["Expected number, received nan"]
     | .undef => ["Required"]
     | _ => ["Expected number, received other"])
  | "Project Type" =>
    (match v with
     | .str s => if 20 < s.length then ["String must contain at most 20 character(s)"] else []
     | .undef => ["Required"]
     | _ => ["Expected string, received other"])
  | "Quantity" =>
    (match v with
     | .num (.val _) => []
     | .num .nan => ["Expected number, received nan"]
     | .undef => ["Required"]
     | _ => ["Expected number, received other"])
  | "Price Per Item" =>
    (match v with
     | .num (.val _) => []
     | .num .nan => ["Expected number, received nan"]
     | .undef => ["Required"]
     | _ => ["Expected number, received other"])
  | "Item Price Currency" =>
    (match v with
     | .str s => if s.length == 3 then [] else ["String must contain exactly 3 character(s)"]
     | .undef => ["Required"]
     | _ => ["Expected string, received other"])
  | "Total Price" =>
    (match v with
     | .num (.val _) => []
     | .num .nan => ["Expected number, received nan"]
     | .undef => ["Required"]
     | _ => ["Expected number, received other"])
  | "Invoice Currency" =>
    (match v with
     | .str s => if s.length == 3 then [] else ["String must contain exactly 3 character(s)"]
     | .undef => ["Required"]
     | _ => ["Expected string, received other"])
  | "Status" =>
    (match v with
     | .str s => if s == "Ready" || s == "Done" then [] else ["Invalid enum value"]
     | .undef => ["Required"]
     | _ => ["Invalid enum value"])
  | _ => []

/-- `getRightCellIndex` of src/index.ts.  Note the source builds the
result from `columnLetters[columnIndex + 1]` and `cell[1]` (the single
character at position 1), so only the first character of the row part
survives; when the cell name has no character at position 1 the string
concatenation renders undefined as "undefined". -/
def getRightCellIndex (cell : String) : Except String String :=
  match cell.data with
  | [] => .error "Wrong column index"
  | c :: rest =>
    let columnIndex : Int := (c.toNat : Int) - 65
    if 0 ≤ columnIndex ∧ columnIndex < 25 then
      .ok (String.mk [columnLetters.getD (columnIndex.toNat + 1) 'A'] ++
           (match rest with
            | [] => "undefined"
            | d :: _ => String.mk [d]))
    else .error "Wrong column index"

def monthToNum (m : String) : Option String :=
  match m with
  | "Jan" => some "01"
  | "Feb" => some "02"
  | "Mar" => some "03"
  | "Apr" => some "04"
  | "May" => some "05"
  | "Jun" => some "06"
  | "Jul" => some "07"
  | "Aug" => some "08"
  | "Sep" => some "09"
  | "Oct" => some "10"
  | "Nov" => some "11"
  | "Dec" => some "12"
  | _ => none

/-- `parseInvoicingDate` of src/index.ts: split on single spaces, take the
first token as month and the second as year, and build "year-monthNumber";
an absent token or unknown month renders "undefined" inside the template
literal, as in JavaScript. -/
def parseInvoicingDate (dateString : String) : String :=
  let dateArray := jsSplitOnSpace dateString
  let month := dateArray.headD ""
  let year := (dateArray.get? 1).getD "undefined"
  year ++ "-" ++ (monthToNum month).getD "undefined"

/-- The rate label a cell contributes: the first space-delimited token of
its (string) value, the word before "Rate".  (The filter guarantees the
value is a string; the coercion is for totality only.) -/
def rateLabelOf (e : String × JsValue) : String :=
  (jsSplitOnSpace (match e.2 with | .str s => s | v => jsToString v)).headD ""

/-- The loop body of `parseCurrencyRates`: for each cell whose string
value ends with "Rate", record under the first space-delimited token the
value of the cell `getRightCellIndex` names, or the sentinel "No value"
when that value is falsy.  A thrown "Wrong column index" aborts the
whole scan. -/
def ratesFold (file : File) : Obj → List (String × JsValue) → Except String Obj
  | rates, [] => .ok rates
  | rates, e :: rest =>
    match getRightCellIndex e.1 with
    | .error err => .error err
    | .ok rightCellIndex =>
      ratesFold file
        (objSet rates (rateLabelOf e)
          (if truthy (objGet file rightCellIndex) then objGet file rightCellIndex
           else JsValue.str "No value"))
        rest

/-- Whether a file entry is selected by the rate-cell filter of
`parseCurrencyRates`: a string value ending with "Rate". -/
def isRateCell (e : String × JsValue) : Bool :=
  match e.2 with
  | .str s => strEndsWith s "Rate"
  | _ => false

/-- `parseCurrencyRates` of src/index.ts. -/
def parseCurrencyRates (file : File) : Except String Obj :=
  ratesFold file [] (file.filter isRateCell)

/-- `rowColFromString` of src/index.ts: the first character of the cell
name (undefined for the empty string) and `parseInt` of the rest. -/
def rowColFromString (cell : String) : Option Char × JSNum :=
  (cell.data.head?, parseIntStr (cell.drop 1))

/-- The first file entry whose value is strictly equal to "Status". -/
def findStatusEntry (file : File) : Option (String × JsValue) :=
  file.find? (fun e => valueEqStr e.2 "Status")

/-- The first file entry whose value is strictly equal to "Invoice #". -/
def findInvoiceNoEntry (file : File) : Option (String × JsValue) :=
  file.find? (fun e => valueEqStr e.2 "Invoice #")

/-- The invoice-number admission test of `parseInvoicesData`: the entry
value is a string starting with "INV" of length exactly 11. -/
def isInvoiceNoString (v : JsValue) : Bool :=
  match v with
  | .str s => strStartsWith s "INV" && s.length == 11
  | _ => false

/-- The row-admission filter of `parseInvoicesData`, exactly as nested in
the source: an entry strictly below the header row is kept when it sits in
the status column with value "Ready", or otherwise when it sits in the
invoice-number column with a well-formed invoice-number string. -/
def admitEntry (statusCol invoiceNoCol : Option Char) (statusRow : JSNum)
    (e : String × JsValue) : Bool :=
  let rc := rowColFromString e.1
  if jsNumGt rc.2 statusRow then
    if rc.1 == statusCol && valueEqStr e.2 "Ready" then true
    else rc.1 == invoiceNoCol && isInvoiceNoString e.2
  else false

/-- The specification wording of row admission, for comparison with
`admitEntry`: a flat union (disjunction) of the two admission conditions
over entries strictly below the header row. -/
def specAdmitEntry (statusCol invoiceNoCol : Option Char) (statusRow : JSNum)
    (e : String × JsValue) : Bool :=
  jsNumGt (rowColFromString e.1).2 statusRow &&
    (((rowColFromString e.1).1 == statusCol && valueEqStr e.2 "Ready") ||
     ((rowColFromString e.1).1 == invoiceNoCol && isInvoiceNoString e.2))

/-- `entriesToProcess` of `parseInvoicesData`. -/
def entriesToProcess (file : File) (statusCol invoiceNoCol : Option Char)
    (statusRow : JSNum) : List (String × JsValue) :=
  file.filter (admitEntry statusCol invoiceNoCol statusRow)

/-- `rowsToProcess` of `parseInvoicesData`: the row number of each
processed entry, one list element per admitted entry (no deduplication in
the source). -/
def rowsToProcess (file : File) (statusCol invoiceNoCol : Option Char)
    (statusRow : JSNum) : List JSNum :=
  (entriesToProcess file statusCol invoiceNoCol statusRow).map
    (fun e => parseIntStr (e.1.drop 1))

/-- The header-column harvesting loop of `parseInvoicesData`: a Map from
header-row cell index to its value, for every column letter whose header
cell holds a truthy value. -/
def mkColumns (file : File) (headerRowStr : String) : Obj :=
  columnLetters.foldl
    (fun acc letter =>
      let cellIndex := String.mk [letter] ++ headerRowStr
      if truthy (objGet file cellIndex) then objSet acc cellIndex (objGet file cellIndex)
      else acc)
    []

/-- The object key a given column letter writes into a record: the
stringification of the column name the layout holds for it ("undefined"
when the column has no header). -/
def colKeyAt (columns : Obj) (headerRowStr : String) (letter : Char) : String :=
  jsToString (objGet columns (String.mk [letter] ++ headerRowStr))

/-- The validation messages a given column letter contributes to a record
for a given data row: nonempty exactly when the column is named by a
mandatory field whose cell value fails its rule. -/
def colMsgs (file : File) (columns : Obj) (headerRowStr rowStr : String)
    (letter : Char) : List String :=
  match objGet columns (String.mk [letter] ++ headerRowStr) with
  | .str s =>
    if mandatoryFields.contains s then
      (zodCheck s (objGet file (String.mk [letter] ++ rowStr))).map (fun m => s ++ ": " ++ m)
    else []
  | _ => []

/-- The spread `[...(entry.validationErrors || [])]` used when appending
validation messages: an array spreads to itself, a string spreads to its
characters (the empty string is falsy and yields the empty list either
way), undefined and falsy numbers fall back to the empty array, and a
truthy non-iterable raises a TypeError. -/
def spreadAsStrings (v : JsValue) : Except String (List String) :=
  match v with
  | .arr xs => .ok xs
  | .str s => .ok (s.data.map (fun c => String.mk [c]))
  | .undef => .ok []
  | .num n => if truthy (.num n) then .error "TypeError" else .ok []

/-- One iteration of the per-column loop of the record-assembly phase of
`parseInvoicesData`: read the column name at `(letter, header row)` and
the cell value at `(letter, data row)`, validate the cell when the column
is named by a mandatory field, appending formatted messages to
`validationErrors` on failure, then store the raw cell value under the
stringified column name (which for a string-valued name is the name
itself). -/
def processColumn (file : File) (columns : Obj) (headerRowStr rowStr : String)
    (entry : Obj) (letter : Char) : Except String Obj :=
  match objGet columns (String.mk [letter] ++ headerRowStr) with
  | .str s =>
    if mandatoryFields.contains s then
      if (zodCheck s (objGet file (String.mk [letter] ++ rowStr))).isEmpty then
        .ok (objSet entry s (objGet file (String.mk [letter] ++ rowStr)))
      else
        match spreadAsStrings (objGet entry "validationErrors") with
        | .error e => .error e
        | .ok old =>
          .ok (objSet
                (objSet entry "validationErrors"
                  (JsValue.arr (old ++
                    (zodCheck s (objGet file (String.mk [letter] ++ rowStr))).map
                      (fun m => s ++ ": " ++ m))))
                s (objGet file (String.mk [letter] ++ rowStr)))
    else .ok (objSet entry s (objGet file (String.mk [letter] ++ rowStr)))
  | columnName =>
    .ok (objSet entry (jsToString columnName) (objGet file (String.mk [letter] ++ rowStr)))

/-- Sequential fold of the per-column loop in `Except`; a thrown
TypeError propagates. -/
def exceptFoldl (g : Obj → Char → Except String Obj) : Obj → List Char → Except String Obj
  | o, [] => .ok o
  | o, c :: cs =>
    match g o c with
    | .error e => .error e
    | .ok o2 => exceptFoldl g o2 cs

/-- Record assembly for one admitted row: start from
`{ validationErrors: [] }` and run the per-column loop over the whole
column alphabet. -/
def buildRecord (file : File) (columns : Obj) (headerRowStr rowStr : String) :
    Except String Obj :=
  exceptFoldl (processColumn file columns headerRowStr rowStr)
    [("validationErrors", JsValue.arr [])] columnLetters

/-- Sequential map in `Except`, modelling the `forEach` over
`rowsToProcess`: the first thrown error aborts the whole batch. -/
def exceptMapM {α β : Type} (g : α → Except String β) : List α → Except String (List β)
  | [] => .ok []
  | x :: xs =>
    match g x with
    | .error e => .error e
    | .ok y =>
      match exceptMapM g xs with
      | .error e => .error e
      | .ok ys => .ok (y :: ys)

/-- `parseInvoicesData` of src/index.ts.  The source casts the results of
the two `find` calls and dereferences them unconditionally; the crash this
produces on a file with no "Status" or no "Invoice #" cell (the function
is documented to run only after `validateSheetStructure`) is modelled as
the error "TypeError". -/
def parseInvoicesData (file : File) : Except String (List Obj) :=
  match findStatusEntry file, findInvoiceNoEntry file with
  | some statusEntry, some invoiceNoEntry =>
    let src := rowColFromString statusEntry.1
    let irc := rowColFromString invoiceNoEntry.1
    if jsNumEq src.2 irc.2 then
      let headerRowStr := jsNumToStr src.2
      let columns := mkColumns file headerRowStr
      exceptMapM
        (fun row => buildRecord file columns headerRowStr (jsNumToStr row))
        (rowsToProcess file src.1 irc.1 src.2)
    else .error "Broken table"
  | _, _ => .error "TypeError"

/-- The mandatory-field presence loop of `validateSheetStructure`: walk
the field set in insertion order and throw at the first name that appears
as no cell value.  The thrown message does not mention the field. -/
def checkMandatory (file : File) : List String → Except String Unit
  | [] => .ok ()
  | f :: fs =>
    if (file.find? (fun cell => valueEqStr cell.2 f)).isSome then checkMandatory file fs
    else .error "Mandatory field is missing"

/-- `validateSheetStructure` of src/index.ts. -/
def validateSheetStructure (file : File) : Except String Unit :=
  match findStatusEntry file with
  | none => .error "No \x27Status\x27 cell in sheet"
  | some _ =>
    match findInvoiceNoEntry file with
    | none => .error "No \x27Invoice #\x27 cell in sheet"
    | some _ =>
      match objGet file "A1" with
      | .str _ => checkMandatory file mandatoryFields
      | _ => .error "Wrong Invoice Date"

/-- The per-record body of `calculateTotalInvoiceCurrency`: look the
record currency up in the rate table (property access stringifies the
value), and write either the computed total or the sentinel into
"Invoice Total". -/
def enrichRecord (currencyRates : Obj) (invoiceData : Obj) : Obj :=
  let invoiceCurrencyKey := jsToString (objGet invoiceData "Invoice Currency")
  if objGet currencyRates invoiceCurrencyKey ≠ JsValue.undef then
    objSet invoiceData "Invoice Total"
      (JsValue.str (jsNumToStr
        (jsMul (parseIntStr (jsToString (objGet invoiceData "Total Price")))
               (parseFloatStr (jsToString (objGet currencyRates invoiceCurrencyKey))))))
  else
    objSet invoiceData "Invoice Total" (JsValue.str "No such currency defined")

/-- `calculateTotalInvoiceCurrency` of src/index.ts. -/
def calculateTotalInvoiceCurrency (invoicesData : List Obj) (currencyRates : Obj) :
    List Obj :=
  invoicesData.map (enrichRecord currencyRates)

/-- The response object of the POST handler. -/
structure Output where
  InvoicingMonth : String
  currencyRates : Obj
  invoicesData : List Obj

/-- The POST handler of src/index.ts, after the upload has been decoded
into a `File`: validate the structure, canonicalize the invoicing date of
cell A1, compare it strictly against the caller-supplied parameter, and
only then build the rate table, extract the records, and compute totals.
The `Except` sequencing models the control flow: a thrown error stops
everything after it.  (Cell A1 holds a string whenever the comparison is
reached, by the preceding validation; the `jsToString` coercion is for
totality only.) -/
def postHandler (file : File) (invoicingMonthParameter : JsValue) :
    Except String Output :=
  match validateSheetStructure file with
  | .error e => .error e
  | .ok _ =>
    let invoicingMonth := parseInvoicingDate (jsToString (objGet file "A1"))
    if valueEqStr invoicingMonthParameter invoicingMonth then
      match parseCurrencyRates file with
      | .error e => .error e
      | .ok currencyRates =>
        match parseInvoicesData file with
        | .error e => .error e
        | .ok invoicesData =>
          .ok { InvoicingMonth := invoicingMonth
              , currencyRates := currencyRates
              , invoicesData := calculateTotalInvoiceCurrency invoicesData currencyRates }
    else .error "Invoicing month param dont match file invoicing month"

/-- The messages contributed to `validationErrors` by a list of column
letters, in loop order. -/
def msgsOf (file : File) (columns : Obj) (headerRowStr rowStr : String) :
    List Char → List String
  | [] => []
  | c :: cs =>
    colMsgs file columns headerRowStr rowStr c ++ msgsOf file columns headerRowStr rowStr cs

/-- The last column letter among `letters` that writes the record key `k`,
if any. -/
def lastWriteCol (columns : Obj) (headerRowStr : String) (letters : List Char)
    (k : String) : Option Char :=
  (letters.filter (fun c => colKeyAt columns headerRowStr c == k)).getLast?

/-- Whether `sub` occurs inside `s` as a contiguous substring. -/
def strContains (s sub : String) : Bool :=
  listHasSub sub.data s.data

/-! Concrete example sheets used by the claim-level theorems below. -/

/-- A sheet whose data row 3 satisfies both admission conditions: the
status-column cell I3 is "Ready" and the invoice-number-column cell J3 is
a well-formed invoice number. -/
def exC1 : File :=
  [("A1", .str "Sep 2023"),
   ("A2", .str "Customer"), ("B2", .str "Cust No\x27"), ("C2", .str "Project Type"),
   ("D2", .str "Quantity"), ("E2", .str "Price Per Item"), ("F2", .str "Item Price Currency"),
   ("G2", .str "Total Price"), ("H2", .str "Invoice Currency"), ("I2", .str "Status"),
   ("J2", .str "Invoice #"),
   ("I3", .str "Ready"), ("J3", .str "INV00000001")]

/-- A sheet with a rate-annotation cell on a two-digit row: A12 holds
"USD Rate" and its true right neighbour B12 holds the rate 1.1. -/
def exC2 : File :=
  [("A12", .str "USD Rate"), ("B12", .num (.val (11 / 10)))]

/-- A sheet whose header row names a column "validationErrors" and whose
data row stores a truthy number in that column while a mandatory field
(Status) fails validation on the same row. -/
def exC3file : File :=
  [("A1", .str "Sep 2023"),
   ("A2", .str "validationErrors"), ("B2", .str "Status"), ("C2", .str "Invoice #"),
   ("D2", .str "Customer"), ("E2", .str "Cust No\x27"), ("F2", .str "Project Type"),
   ("G2", .str "Quantity"), ("H2", .str "Price Per Item"), ("I2", .str "Item Price Currency"),
   ("J2", .str "Total Price"), ("K2", .str "Invoice Currency"),
   ("A3", .num (.val 5)), ("C3", .str "INV00000001")]

/-- A sheet whose column Z has no header cell but holds a value in the
admitted data row 3. -/
def exC4 : File :=
  [("B2", .str "Status"), ("C2", .str "Invoice #"), ("B3", .str "Ready"),
   ("Z3", .str "leak")]

/-- A minimal sheet with anchors on header row 2 and one admitted row. -/
def exSmallFile : File :=
  [("B2", .str "Status"), ("C2", .str "Invoice #"), ("B3", .str "Ready")]

/-- The single record `parseInvoicesData` extracts from `exSmallFile`. -/
def exSmallRec : Obj :=
  [("validationErrors", .arr []), ("undefined", .undef),
   ("Status", .str "Ready"), ("Invoice #", .undef)]

/-- A sheet satisfying the anchor and date checks in which every mandatory
field except "Customer" appears as a cell value. -/
def exC5 : File :=
  [("A1", .str "Sep 2023"), ("B1", .str "Status"), ("C1", .str "Invoice #"),
   ("D1", .str "Cust No\x27"), ("E1", .str "Project Type"), ("F1", .str "Quantity"),
   ("G1", .str "Price Per Item"), ("H1", .str "Item Price Currency"),
   ("I1", .str "Total Price"), ("J1", .str "Invoice Currency")]

/-- A minimal sheet whose "Status" and "Invoice #" anchor cells lie on
different rows (2 and 3). -/
def exW6 : File :=
  [("A1", .str "Sep 2023"), ("B2", .str "Status"), ("C3", .str "Invoice #")]

/-- A structurally valid sheet (all anchors, date and mandatory labels)
whose A1 invoicing date is "Sep 2023". -/
def exW8 : File :=
  [("A1", .str "Sep 2023"), ("B1", .str "Status"), ("C1", .str "Invoice #"),
   ("D1", .str "Customer"), ("E1", .str "Cust No\x27"), ("F1", .str "Project Type"),
   ("G1", .str "Quantity"), ("H1", .str "Price Per Item"),
   ("I1", .str "Item Price Currency"), ("J1", .str "Total Price"),
   ("K1", .str "Invoice Currency")]

/-- A sheet with one rate-annotation cell whose right neighbour is present
but holds the falsy number 0. -/
def exW9 : File :=
  [("A1", .str "USD Rate"), ("B1", .num (.val 0))]

/-- A sheet for the validation-accumulation witness: anchors on row 2, a
full mandatory header row B2..K2, data row 3 admitted through B3="Ready",
and a number 7 in the "Customer" column D. -/
def exW3 : File :=
  [("A1", .str "Sep 2023"),
   ("B2", .str "Status"), ("C2", .str "Invoice #"), ("D2", .str "Customer"),
   ("E2", .str "Cust No\x27"), ("F2", .str "Project Type"), ("G2", .str "Quantity"),
   ("H2", .str "Price Per Item"), ("I2", .str "Item Price Currency"),
   ("J2", .str "Total Price"), ("K2", .str "Invoice Currency"),
   ("B3", .str "Ready"), ("D3", .num (.val 7))]

/-! Helper lemmas about the object model. -/

theorem any_key_map_update (k : String) (v : JsValue) (o : Obj) :
    (o.map (fun p => if p.1 == k then (k, v) else p)).any (fun p => p.1 == k)
      = o.any (fun p => p.1 == k) := by
  induction o with
  | nil => rfl
  | cons p o ih =>
    rw [List.map_cons, List.any_cons, List.any_cons, ih]
    by_cases hp : p.1 = k
    · rw [if_pos (by simp [hp])]
      simp [hp]
    · rw [if_neg (by simp [hp])]

theorem find?_key_map_update (k : String) (v : JsValue) (o : Obj)
    (h : o.any (fun p => p.1 == k) = true) :
    (o.map (fun p => if p.1 == k then (k, v) else p)).find? (fun p => p.1 == k)
      = some (k, v) := by
  induction o with
  | nil => simp at h
  | cons p o ih =>
    rw [List.map_cons]
    by_cases hp : p.1 = k
    · rw [if_pos (by simp [hp])]
      exact List.find?_cons_of_pos _ (by simp)
    · rw [if_neg (by simp [hp])]
      rw [List.find?_cons_of_neg _ (by simp [hp])]
      apply ih
      rw [List.any_cons] at h
      rcases Bool.or_eq_true_iff.mp h with h1 | h1
      · exact absurd (by simpa using h1) hp
      · exact h1

theorem find?_key_map_update_ne (k k2 : String) (v : JsValue) (o : Obj)
    (h : k2 ≠ k) :
    (o.map (fun p => if p.1 == k then (k, v) else p)).find? (fun p => p.1 == k2)
      = o.find? (fun p => p.1 == k2) := by
  induction o with
  | nil => rfl
  | cons p o ih =>
    rw [List.map_cons]
    by_cases hp : p.1 = k
    · rw [if_pos (by simp [hp])]
      rw [List.find?_cons_of_neg _ (by simp; exact fun hh => h hh.symm)]
      rw [List.find?_cons_of_neg _ (by simp [hp]; exact fun hh => h hh.symm)]
      exact ih
    · rw [if_neg (by simp [hp])]
      by_cases hp2 : p.1 = k2
      · rw [List.find?_cons_of_pos _ (by simp [hp2]), List.find?_cons_of_pos _ (by simp [hp2])]
      · rw [List.find?_cons_of_neg _ (by simp [hp2]), List.find?_cons_of_neg _ (by simp [hp2])]
        exact ih

theorem bool_not_true_eq_false {b : Bool} (h : ¬ b = true) : b = false := by
  cases b
  · rfl
  · exact absurd rfl h

theorem any_key_false_forall (k : String) (o : Obj)
    (h : o.any (fun p => p.1 == k) = false) : ∀ p ∈ o, ¬(p.1 = k) := by
  intro p hp hh
  have h1 : o.any (fun p => p.1 == k) = true := List.any_eq_true.mpr ⟨p, hp, by simp [hh]⟩
  rw [h] at h1
  exact Bool.false_ne_true h1

theorem find?_key_append_absent (k : String) (v : JsValue) (o : Obj)
    (h : o.any (fun p => p.1 == k) = false) :
    (o ++ [(k, v)]).find? (fun p => p.1 == k) = some (k, v) := by
  induction o with
  | nil =>
    rw [List.nil_append]
    exact List.find?_cons_of_pos _ (by simp)
  | cons p o ih =>
    rw [List.any_cons, Bool.or_eq_false_iff] at h
    rw [List.cons_append, List.find?_cons_of_neg _ (by simp [h.1])]
    exact ih h.2

theorem find?_key_append_ne (k k2 : String) (v : JsValue) (o : Obj) (h : k2 ≠ k) :
    (o ++ [(k, v)]).find? (fun p => p.1 == k2) = o.find? (fun p => p.1 == k2) := by
  induction o with
  | nil =>
    rw [List.nil_append, List.find?_cons_of_neg _ (by simp; exact fun hh => h hh.symm)]
  | cons p o ih =>
    rw [List.cons_append]
    by_cases hp : p.1 = k2
    · rw [List.find?_cons_of_pos _ (by simp [hp]), List.find?_cons_of_pos _ (by simp [hp])]
    · rw [List.find?_cons_of_neg _ (by simp [hp]), List.find?_cons_of_neg _ (by simp [hp])]
      exact ih

theorem objGet_objSet_self (k : String) (v : JsValue) (o : Obj) :
    objGet (objSet o k v) k = v := by
  unfold objSet objGet
  by_cases ha : o.any (fun p => p.1 == k) = true
  · rw [if_pos ha, find?_key_map_update k v o ha]
  · rw [if_neg ha, find?_key_append_absent k v o (bool_not_true_eq_false ha)]

theorem objGet_objSet_ne (k k2 : String) (v : JsValue) (o : Obj) (h : k2 ≠ k) :
    objGet (objSet o k v) k2 = objGet o k2 := by
  unfold objSet objGet
  by_cases ha : o.any (fun p => p.1 == k) = true
  · rw [if_pos ha, find?_key_map_update_ne k k2 v o h]
  · rw [if_neg ha, find?_key_append_ne k k2 v o h]

theorem objSet_objSet_self (k : String) (v v2 : JsValue) (o : Obj) :
    objSet (objSet o k v) k v2 = objSet o k v2 := by
  by_cases ha : o.any (fun p => p.1 == k) = true
  · have h1 : objSet o k v = o.map (fun p => if p.1 == k then (k, v) else p) := by
      unfold objSet; rw [if_pos ha]
    have h3 : objSet o k v2 = o.map (fun p => if p.1 == k then (k, v2) else p) := by
      unfold objSet; rw [if_pos ha]
    have h2 : (o.map (fun p => if p.1 == k then (k, v) else p)).any (fun p => p.1 == k) = true := by
      rw [any_key_map_update]; exact ha
    have hL : objSet (objSet o k v) k v2
        = (o.map (fun p => if p.1 == k then (k, v) else p)).map
            (fun p => if p.1 == k then (k, v2) else p) := by
      rw [h1]; unfold objSet; rw [if_pos h2]
    rw [hL, h3, List.map_map]
    apply List.map_congr_left
    intro p _
    by_cases hp : p.1 = k
    · simp [Function.comp_apply, hp]
    · simp [Function.comp_apply, hp]
  · have hall := any_key_false_forall k o (bool_not_true_eq_false ha)
    have h1 : objSet o k v = o ++ [(k, v)] := by
      unfold objSet; rw [if_neg ha]
    have h3 : objSet o k v2 = o ++ [(k, v2)] := by
      unfold objSet; rw [if_neg ha]
    have h4 : (o ++ [(k, v)]).any (fun p => p.1 == k) = true := by
      simp [List.any_append]
    have hL : objSet (objSet o k v) k v2
        = (o ++ [(k, v)]).map (fun p => if p.1 == k then (k, v2) else p) := by
      rw [h1]; unfold objSet; rw [if_pos h4]
    rw [hL, h3, List.map_append]
    congr 1
    · calc o.map (fun p => if p.1 == k then (k, v2) else p)
          = o.map (fun p => p) := by
            apply List.map_congr_left
            intro p hp
            rw [if_neg (by simp [hall p hp])]
        _ = o := List.map_id' o
    · simp

theorem objKeys_objSet (k : String) (v : JsValue) (o : Obj) :
    ∀ x ∈ objKeys (objSet o k v), x ∈ objKeys o ∨ x = k := by
  unfold objSet objKeys
  by_cases ha : o.any (fun p => p.1 == k) = true
  · rw [if_pos ha, List.map_map]
    intro x hx
    rw [List.mem_map] at hx
    rcases hx with ⟨p, hp, hpx⟩
    by_cases hpk : p.1 = k
    · right
      rw [← hpx]
      simp [Function.comp_apply, hpk]
    · left
      rw [List.mem_map]
      exact ⟨p, hp, by rw [← hpx]; simp [Function.comp_apply, hpk]⟩
  · rw [if_neg ha, List.map_append]
    intro x hx
    rw [List.mem_append] at hx
    rcases hx with hx | hx
    · exact Or.inl hx
    · right
      simpa using hx

/-! Helper lemmas about the sequential `Except` combinators. -/

theorem exceptMapM_ok_length {α β : Type} (g : α → Except String β) :
    ∀ (xs : List α) (ys : List β), exceptMapM g xs = .ok ys → ys.length = xs.length := by
  intro xs
  induction xs with
  | nil =>
    intro ys h
    simp only [exceptMapM] at h
    obtain rfl : ([] : List β) = ys := by injection h
    rfl
  | cons x xs ih =>
    intro ys h
    simp only [exceptMapM] at h
    cases hg : g x with
    | error e => rw [hg] at h; exact Except.noConfusion h
    | ok y =>
      rw [hg] at h
      cases hrec : exceptMapM g xs with
      | error e => rw [hrec] at h; exact Except.noConfusion h
      | ok ys2 =>
        rw [hrec] at h
        obtain rfl : y :: ys2 = ys := by injection h
        simp [ih ys2 hrec]

theorem exceptMapM_ok_mem {α β : Type} (g : α → Except String β) :
    ∀ (xs : List α) (ys : List β), exceptMapM g xs = .ok ys →
      ∀ x ∈ xs, ∀ y, g x = .ok y → y ∈ ys := by
  intro xs
  induction xs with
  | nil => intro ys _ x hx; exact absurd hx (List.not_mem_nil x)
  | cons x0 xs ih =>
    intro ys h x hx y hy
    simp only [exceptMapM] at h
    cases hg : g x0 with
    | error e => rw [hg] at h; exact Except.noConfusion h
    | ok y0 =>
      rw [hg] at h
      cases hrec : exceptMapM g xs with
      | error e => rw [hrec] at h; exact Except.noConfusion h
      | ok ys2 =>
        rw [hrec] at h
        obtain rfl : y0 :: ys2 = ys := by injection h
        rcases List.mem_cons.mp hx with rfl | hx2
        · have : y0 = y := by rw [hg] at hy; injection hy
          rw [← this]
          exact List.mem_cons_self _ _
        · exact List.mem_cons_of_mem _ (ih ys2 hrec x hx2 y hy)

theorem exceptMapM_all_ok {α β : Type} (g : α → Except String β) :
    ∀ (xs : List α), (∀ x ∈ xs, ∃ y, g x = .ok y) →
      ∃ ys, exceptMapM g xs = .ok ys := by
  intro xs
  induction xs with
  | nil => intro _; exact ⟨[], rfl⟩
  | cons x xs ih =>
    intro h
    obtain ⟨y, hy⟩ := h x (List.mem_cons_self _ _)
    obtain ⟨ys, hys⟩ := ih (fun a ha => h a (List.mem_cons_of_mem _ ha))
    refine ⟨y :: ys, ?_⟩
    simp only [exceptMapM, hy, hys]

/-! Specification of the record-assembly fold. -/

theorem getLast?_cons_ne_none {α : Type} (a : α) (l : List α) : (a :: l).getLast? ≠ none := by
  induction l generalizing a with
  | nil => simp [List.getLast?]
  | cons b t ih =>
    rw [List.getLast?_cons_cons]
    exact ih b

theorem getLast?_cons_ne {α : Type} (a : α) (l : List α) (h : l ≠ []) :
    (a :: l).getLast? = l.getLast? := by
  cases l with
  | nil => exact absurd rfl h
  | cons b t => exact List.getLast?_cons_cons

theorem processColumn_spec (file : File) (columns : Obj) (headerRowStr rowStr : String)
    (c : Char) (entry : Obj) (es : List String)
    (hve : objGet entry "validationErrors" = JsValue.arr es) :
    ∃ entry1,
      processColumn file columns headerRowStr rowStr entry c
        = .ok (objSet entry1 (colKeyAt columns headerRowStr c)
                (objGet file (String.mk [c] ++ rowStr))) ∧
      objGet entry1 "validationErrors"
        = JsValue.arr (es ++ colMsgs file columns headerRowStr rowStr c) ∧
      (∀ k, k ≠ "validationErrors" → objGet entry1 k = objGet entry k) ∧
      (∀ k ∈ objKeys entry1, k ∈ objKeys entry ∨ k = "validationErrors") := by
  cases hcn : objGet columns (String.mk [c] ++ headerRowStr) with
  | str s =>
    by_cases hm : mandatoryFields.contains s = true
    · by_cases hz : (zodCheck s (objGet file (String.mk [c] ++ rowStr))).isEmpty = true
      · refine ⟨entry, ?_, ?_, fun k _ => rfl, fun k hk => Or.inl hk⟩
        · simp only [processColumn, hcn, hm, hz, if_true, colKeyAt, jsToString]
        · rw [hve]
          simp only [colMsgs, hcn, hm, if_true, List.isEmpty_iff.mp hz, List.map_nil,
            List.append_nil]
      · have hzf : (zodCheck s (objGet file (String.mk [c] ++ rowStr))).isEmpty = false :=
          bool_not_true_eq_false hz
        refine ⟨objSet entry "validationErrors"
          (JsValue.arr (es ++
            (zodCheck s (objGet file (String.mk [c] ++ rowStr))).map
              (fun m => s ++ ": " ++ m))), ?_, ?_, ?_, ?_⟩
        · simp only [processColumn, hcn, hm, hzf, if_true, Bool.false_eq_true, if_false,
            hve, spreadAsStrings, colKeyAt, jsToString]
        · rw [objGet_objSet_self]
          simp only [colMsgs, hcn, hm, if_true]
        · intro k hk
          exact objGet_objSet_ne _ k _ entry (fun hh => hk hh)
        · intro k hk
          rcases objKeys_objSet _ _ entry k hk with h1 | h1
          · exact Or.inl h1
          · exact Or.inr h1
    · have hmf : mandatoryFields.contains s = false := bool_not_true_eq_false hm
      refine ⟨entry, ?_, ?_, fun k _ => rfl, fun k hk => Or.inl hk⟩
      · simp only [processColumn, hcn, hmf, Bool.false_eq_true, if_false, colKeyAt, jsToString]
      · rw [hve]
        simp only [colMsgs, hcn, hmf, Bool.false_eq_true, if_false, List.append_nil]
  | num n =>
    refine ⟨entry, ?_, ?_, fun k _ => rfl, fun k hk => Or.inl hk⟩
    · simp only [processColumn, hcn, colKeyAt]
    · rw [hve]
      simp only [colMsgs, hcn, List.append_nil]
  | arr xs =>
    refine ⟨entry, ?_, ?_, fun k _ => rfl, fun k hk => Or.inl hk⟩
    · simp only [processColumn, hcn, colKeyAt]
    · rw [hve]
      simp only [colMsgs, hcn, List.append_nil]
  | undef =>
    refine ⟨entry, ?_, ?_, fun k _ => rfl, fun k hk => Or.inl hk⟩
    · simp only [processColumn, hcn, colKeyAt]
    · rw [hve]
      simp only [colMsgs, hcn, List.append_nil]

/-- Main invariant of the record-assembly fold.  Provided no column of the
given letters writes the reserved key "validationErrors", the fold
succeeds; the final validation-error list is the initial one followed by
the messages of each column in loop order; every other key ends up holding
the cell value of the last column that writes that key (or its initial
value when no column does); and every key of the final record comes from
the initial record, the reserved key, or some column of the letters. -/
theorem buildFold_spec (file : File) (columns : Obj) (headerRowStr rowStr : String) :
    ∀ (letters : List Char) (entry : Obj) (es : List String),
      (∀ c ∈ letters, colKeyAt columns headerRowStr c ≠ "validationErrors") →
      objGet entry "validationErrors" = JsValue.arr es →
      ∃ final,
        exceptFoldl (processColumn file columns headerRowStr rowStr) entry letters
          = .ok final ∧
        objGet final "validationErrors"
          = JsValue.arr (es ++ msgsOf file columns headerRowStr rowStr letters) ∧
        (∀ k, k ≠ "validationErrors" →
          objGet final k =
            (match lastWriteCol columns headerRowStr letters k with
             | some c => objGet file (String.mk [c] ++ rowStr)
             | none => objGet entry k)) ∧
        (∀ k ∈ objKeys final,
          k ∈ objKeys entry ∨ k = "validationErrors" ∨
            ∃ c ∈ letters, k = colKeyAt columns headerRowStr c) := by
  intro letters
  induction letters with
  | nil =>
    intro entry es hks hve
    refine ⟨entry, rfl, ?_, ?_, fun k hk => Or.inl hk⟩
    · rw [hve]
      simp only [msgsOf, List.append_nil]
    · intro k _
      rfl
  | cons c0 rest ih =>
    intro entry es hks hve
    obtain ⟨e1p, hstep, hveE1p, hoffE1p, hkeysE1p⟩ :=
      processColumn_spec file columns headerRowStr rowStr c0 entry es hve
    have hK0ne : colKeyAt columns headerRowStr c0 ≠ "validationErrors" :=
      hks c0 (List.mem_cons_self _ _)
    have hveE1 : objGet (objSet e1p (colKeyAt columns headerRowStr c0)
        (objGet file (String.mk [c0] ++ rowStr))) "validationErrors"
        = JsValue.arr (es ++ colMsgs file columns headerRowStr rowStr c0) := by
      rw [objGet_objSet_ne _ _ _ _ (fun hh => hK0ne hh.symm)]
      exact hveE1p
    obtain ⟨final, hfold, hveF, hlastF, hkeysF⟩ :=
      ih (objSet e1p (colKeyAt columns headerRowStr c0)
          (objGet file (String.mk [c0] ++ rowStr)))
        (es ++ colMsgs file columns headerRowStr rowStr c0)
        (fun c hc => hks c (List.mem_cons_of_mem _ hc)) hveE1
    refine ⟨final, ?_, ?_, ?_, ?_⟩
    · simp only [exceptFoldl, hstep]
      exact hfold
    · rw [hveF]
      simp only [msgsOf]
      rw [List.append_assoc]
    · intro k hk
      by_cases hc0k : colKeyAt columns headerRowStr c0 = k
      · cases hfr : rest.filter (fun c => colKeyAt columns headerRowStr c == k) with
        | nil =>
          have hlw : lastWriteCol columns headerRowStr (c0 :: rest) k = some c0 := by
            unfold lastWriteCol
            rw [List.filter_cons_of_pos (by simp [hc0k]), hfr]
            rfl
          rw [hlw, hlastF k hk]
          have hlwr : lastWriteCol columns headerRowStr rest k = none := by
            unfold lastWriteCol
            rw [hfr]
            rfl
          rw [hlwr]
          rw [← hc0k, objGet_objSet_self]
        | cons a l =>
          have hlw : lastWriteCol columns headerRowStr (c0 :: rest) k
              = lastWriteCol columns headerRowStr rest k := by
            unfold lastWriteCol
            rw [List.filter_cons_of_pos (by simp [hc0k])]
            exact getLast?_cons_ne c0 _ (by rw [hfr]; exact List.cons_ne_nil a l)
          rw [hlw, hlastF k hk]
          cases hlwr : lastWriteCol columns headerRowStr rest k with
          | some c => rfl
          | none =>
            exfalso
            unfold lastWriteCol at hlwr
            rw [hfr] at hlwr
            exact getLast?_cons_ne_none a l hlwr
      · have hlw : lastWriteCol columns headerRowStr (c0 :: rest) k
            = lastWriteCol columns headerRowStr rest k := by
          unfold lastWriteCol
          rw [List.filter_cons_of_neg (by simp [hc0k])]
        rw [hlw, hlastF k hk]
        cases hlwr : lastWriteCol columns headerRowStr rest k with
        | some c => rfl
        | none =>
          rw [objGet_objSet_ne _ _ _ _ (fun hh => hc0k hh.symm)]
          exact hoffE1p k hk
    · intro k hkF
      rcases hkeysF k hkF with hk1 | hk2 | ⟨c, hc, hkc⟩
      · rcases objKeys_objSet _ _ e1p k hk1 with hk3 | hk3
        · rcases hkeysE1p k hk3 with h4 | h4
          · exact Or.inl h4
          · exact Or.inr (Or.inl h4)
        · exact Or.inr (Or.inr ⟨c0, List.mem_cons_self _ _, hk3⟩)
      · exact Or.inr (Or.inl hk2)
      · exact Or.inr (Or.inr ⟨c, List.mem_cons_of_mem _ hc, hkc⟩)

/-! Further helper lemmas for the claim-level theorems. -/

theorem exceptMapM_ok_mem_rev {α β : Type} (g : α → Except String β) :
    ∀ (xs : List α) (ys : List β), exceptMapM g xs = .ok ys →
      ∀ y ∈ ys, ∃ x ∈ xs, g x = .ok y := by
  intro xs
  induction xs with
  | nil =>
    intro ys h y hy
    simp only [exceptMapM] at h
    obtain rfl : ([] : List β) = ys := by injection h
    exact absurd hy (List.not_mem_nil y)
  | cons x0 xs ih =>
    intro ys h y hy
    simp only [exceptMapM] at h
    cases hg : g x0 with
    | error e => rw [hg] at h; exact Except.noConfusion h
    | ok y0 =>
      rw [hg] at h
      cases hrec : exceptMapM g xs with
      | error e => rw [hrec] at h; exact Except.noConfusion h
      | ok ys2 =>
        rw [hrec] at h
        obtain rfl : y0 :: ys2 = ys := by injection h
        rcases List.mem_cons.mp hy with rfl | hy2
        · exact ⟨x0, List.mem_cons_self _ _, hg⟩
        · obtain ⟨x, hx, hgx⟩ := ih ys2 hrec y hy2
          exact ⟨x, List.mem_cons_of_mem _ hx, hgx⟩

theorem processColumn_ok_keys (file : File) (columns : Obj) (headerRowStr rowStr : String)
    (c : Char) (entry e2 : Obj)
    (h : processColumn file columns headerRowStr rowStr entry c = .ok e2) :
    ∀ k ∈ objKeys e2,
      k ∈ objKeys entry ∨ k = "validationErrors" ∨ k = colKeyAt columns headerRowStr c := by
  cases hcn : objGet columns (String.mk [c] ++ headerRowStr) with
  | str s =>
    have hck : colKeyAt columns headerRowStr c = s := by
      simp only [colKeyAt, hcn, jsToString]
    by_cases hm : mandatoryFields.contains s = true
    · by_cases hz : (zodCheck s (objGet file (String.mk [c] ++ rowStr))).isEmpty = true
      · simp only [processColumn, hcn, hm, hz, if_true] at h
        obtain rfl : objSet entry s (objGet file (String.mk [c] ++ rowStr)) = e2 := by injection h
        intro k hk
        rcases objKeys_objSet _ _ entry k hk with h1 | h1
        · exact Or.inl h1
        · exact Or.inr (Or.inr (by rw [hck]; exact h1))
      · have hzf : (zodCheck s (objGet file (String.mk [c] ++ rowStr))).isEmpty = false :=
          bool_not_true_eq_false hz
        simp only [processColumn, hcn, hm, hzf, if_true, Bool.false_eq_true, if_false] at h
        cases hsp : spreadAsStrings (objGet entry "validationErrors") with
        | error e => rw [hsp] at h; exact Except.noConfusion h
        | ok old =>
          rw [hsp] at h
          obtain rfl : objSet (objSet entry "validationErrors"
              (JsValue.arr (old ++
                (zodCheck s (objGet file (String.mk [c] ++ rowStr))).map
                  (fun m => s ++ ": " ++ m)))) s (objGet file (String.mk [c] ++ rowStr)) = e2 := by
            injection h
          intro k hk
          rcases objKeys_objSet _ _ _ k hk with h1 | h1
          · rcases objKeys_objSet _ _ entry k h1 with h2 | h2
            · exact Or.inl h2
            · exact Or.inr (Or.inl h2)
          · exact Or.inr (Or.inr (by rw [hck]; exact h1))
    · have hmf : mandatoryFields.contains s = false := bool_not_true_eq_false hm
      simp only [processColumn, hcn, hmf, Bool.false_eq_true, if_false] at h
      obtain rfl : objSet entry s (objGet file (String.mk [c] ++ rowStr)) = e2 := by injection h
      intro k hk
      rcases objKeys_objSet _ _ entry k hk with h1 | h1
      · exact Or.inl h1
      · exact Or.inr (Or.inr (by rw [hck]; exact h1))
  | num n =>
    simp only [processColumn, hcn] at h
    obtain rfl : objSet entry (jsToString (.num n)) (objGet file (String.mk [c] ++ rowStr)) = e2 := by
      injection h
    intro k hk
    rcases objKeys_objSet _ _ entry k hk with h1 | h1
    · exact Or.inl h1
    · exact Or.inr (Or.inr (by simp only [colKeyAt, hcn]; exact h1))
  | arr xs =>
    simp only [processColumn, hcn] at h
    obtain rfl : objSet entry (jsToString (.arr xs)) (objGet file (String.mk [c] ++ rowStr)) = e2 := by
      injection h
    intro k hk
    rcases objKeys_objSet _ _ entry k hk with h1 | h1
    · exact Or.inl h1
    · exact Or.inr (Or.inr (by simp only [colKeyAt, hcn]; exact h1))
  | undef =>
    simp only [processColumn, hcn] at h
    obtain rfl : objSet entry (jsToString .undef) (objGet file (String.mk [c] ++ rowStr)) = e2 := by
      injection h
    intro k hk
    rcases objKeys_objSet _ _ entry k hk with h1 | h1
    · exact Or.inl h1
    · exact Or.inr (Or.inr (by simp only [colKeyAt, hcn]; exact h1))

theorem buildFold_keys (file : File) (columns : Obj) (headerRowStr rowStr : String) :
    ∀ (letters : List Char) (entry final : Obj),
      exceptFoldl (processColumn file columns headerRowStr rowStr) entry letters = .ok final →
      ∀ k ∈ objKeys final,
        k ∈ objKeys entry ∨ k = "validationErrors" ∨
          ∃ c ∈ letters, k = colKeyAt columns headerRowStr c := by
  intro letters
  induction letters with
  | nil =>
    intro entry final h k hk
    obtain rfl : entry = final := by
      simp only [exceptFoldl] at h
      injection h
    exact Or.inl hk
  | cons c0 rest ih =>
    intro entry final h k hk
    simp only [exceptFoldl] at h
    cases hg : processColumn file columns headerRowStr rowStr entry c0 with
    | error e => rw [hg] at h; exact Except.noConfusion h
    | ok e1 =>
      rw [hg] at h
      rcases ih e1 final h k hk with h1 | h2 | ⟨c, hc, hkc⟩
      · rcases processColumn_ok_keys file columns headerRowStr rowStr c0 entry e1 hg k h1
          with a | b | cc
        · exact Or.inl a
        · exact Or.inr (Or.inl b)
        · exact Or.inr (Or.inr ⟨c0, List.mem_cons_self _ _, cc⟩)
      · exact Or.inr (Or.inl h2)
      · exact Or.inr (Or.inr ⟨c, List.mem_cons_of_mem _ hc, hkc⟩)

theorem mkColumns_falsy (file : File) (headerRowStr : String) (c : Char)
    (h : truthy (objGet file (String.mk [c] ++ headerRowStr)) = false) :
    objGet (mkColumns file headerRowStr) (String.mk [c] ++ headerRowStr) = JsValue.undef := by
  suffices h2 : ∀ (letters : List Char) (acc : Obj),
      objGet acc (String.mk [c] ++ headerRowStr) = JsValue.undef →
      objGet (letters.foldl (fun acc letter =>
        if truthy (objGet file (String.mk [letter] ++ headerRowStr))
        then objSet acc (String.mk [letter] ++ headerRowStr)
               (objGet file (String.mk [letter] ++ headerRowStr))
        else acc) acc) (String.mk [c] ++ headerRowStr) = JsValue.undef by
    exact h2 columnLetters [] rfl
  intro letters
  induction letters with
  | nil => intro acc hacc; exact hacc
  | cons le rest ih =>
    intro acc hacc
    rw [List.foldl_cons]
    by_cases hle : truthy (objGet file (String.mk [le] ++ headerRowStr)) = true
    · rw [if_pos hle]
      apply ih
      by_cases hkey : String.mk [le] ++ headerRowStr = String.mk [c] ++ headerRowStr
      · exfalso
        have hd := congrArg String.data hkey
        rw [String.data_append, String.data_append] at hd
        have hlec : le = c := by
          have : le :: headerRowStr.data = c :: headerRowStr.data := hd
          injection this
        rw [hlec] at hle
        rw [h] at hle
        exact Bool.false_ne_true hle
      · rw [objGet_objSet_ne _ _ _ _ (fun hh => hkey hh.symm)]
        exact hacc
    · rw [if_neg hle]
      exact ih acc hacc

theorem colMsgs_mem_msgsOf (file : File) (columns : Obj) (headerRowStr rowStr : String) :
    ∀ (letters : List Char) (c : Char), c ∈ letters →
      ∀ x ∈ colMsgs file columns headerRowStr rowStr c,
        x ∈ msgsOf file columns headerRowStr rowStr letters := by
  intro letters
  induction letters with
  | nil => intro c hc; exact absurd hc (List.not_mem_nil c)
  | cons c0 rest ih =>
    intro c hc x hx
    simp only [msgsOf]
    rcases List.mem_cons.mp hc with rfl | hc2
    · exact List.mem_append_left _ hx
    · exact List.mem_append_right _ (ih c hc2 x hx)

theorem checkMandatory_absent (file : File) :
    ∀ (fs : List String) (f : String), f ∈ fs →
      file.find? (fun cell => valueEqStr cell.2 f) = none →
      checkMandatory file fs = .error "Mandatory field is missing" := by
  intro fs
  induction fs with
  | nil => intro f hf; exact absurd hf (List.not_mem_nil f)
  | cons g fs ih =>
    intro f hf habs
    simp only [checkMandatory]
    by_cases hg : (file.find? (fun cell => valueEqStr cell.2 g)).isSome = true
    · rw [if_pos hg]
      rcases List.mem_cons.mp hf with rfl | hf2
      · rw [habs] at hg
        exact absurd hg (by simp)
      · exact ih f hf2 habs
    · rw [if_neg hg]

theorem ratesFold_unmentioned (file : File) (label : String) :
    ∀ (cells : List (String × JsValue)) (init R : Obj),
      cells.filter (fun e => rateLabelOf e == label) = [] →
      ratesFold file init cells = .ok R →
      objGet R label = objGet init label := by
  intro cells
  induction cells with
  | nil =>
    intro init R _ h
    obtain rfl : init = R := by
      simp only [ratesFold] at h
      injection h
    rfl
  | cons e0 cs ih =>
    intro init R hfil h
    simp only [List.filter_cons] at hfil
    by_cases hl : (rateLabelOf e0 == label) = true
    · rw [if_pos hl] at hfil
      exact absurd hfil (List.cons_ne_nil _ _)
    · rw [if_neg hl] at hfil
      simp only [ratesFold] at h
      cases hg : getRightCellIndex e0.1 with
      | error err => rw [hg] at h; exact Except.noConfusion h
      | ok rk =>
        rw [hg] at h
        rw [ih _ _ hfil h]
        apply objGet_objSet_ne
        intro hh
        exact hl (by rw [hh]; exact beq_self_eq_true _)

theorem ratesFold_lastMentioned (file : File) (label : String) :
    ∀ (cells : List (String × JsValue)) (init R : Obj) (e : String × JsValue),
      (cells.filter (fun e => rateLabelOf e == label)).getLast? = some e →
      rateLabelOf e = label →
      ratesFold file init cells = .ok R →
      ∃ rk, getRightCellIndex e.1 = .ok rk ∧
        objGet R label
          = (if truthy (objGet file rk) then objGet file rk else JsValue.str "No value") := by
  intro cells
  induction cells with
  | nil =>
    intro init R e hlast
    simp only [List.filter_nil] at hlast
    exact absurd hlast (by simp [List.getLast?])
  | cons e0 cs ih =>
    intro init R e hlast hle h
    simp only [ratesFold] at h
    cases hg : getRightCellIndex e0.1 with
    | error err => rw [hg] at h; exact Except.noConfusion h
    | ok rk0 =>
      rw [hg] at h
      simp only [List.filter_cons] at hlast
      by_cases hl : (rateLabelOf e0 == label) = true
      · rw [if_pos hl] at hlast
        cases hfr : cs.filter (fun e => rateLabelOf e == label) with
        | nil =>
          rw [hfr] at hlast
          obtain rfl : e0 = e := by
            have : some e0 = some e := hlast
            injection this
          refine ⟨rk0, hg, ?_⟩
          rw [ratesFold_unmentioned file label cs _ R hfr h]
          rw [← (by simpa using hl : rateLabelOf e0 = label), objGet_objSet_self]
        | cons a ll =>
          rw [hfr] at hlast
          rw [getLast?_cons_ne e0 _ (List.cons_ne_nil a ll)] at hlast
          rw [← hfr] at hlast
          exact ih _ R e hlast hle h
      · rw [if_neg hl] at hlast
        exact ih _ R e hlast hle h

theorem jsMul_nan_right (a : JSNum) : jsMul a .nan = .nan := by
  cases a <;> rfl

theorem admitEntry_eq_spec (statusCol invoiceNoCol : Option Char) (statusRow : JSNum)
    (e : String × JsValue) :
    admitEntry statusCol invoiceNoCol statusRow e
      = specAdmitEntry statusCol invoiceNoCol statusRow e := by
  unfold admitEntry specAdmitEntry
  cases hgt : jsNumGt (rowColFromString e.1).2 statusRow
  · simp [hgt]
  · simp only [hgt, if_true, Bool.true_and]
    cases hA : ((rowColFromString e.1).1 == statusCol && valueEqStr e.2 "Ready")
    · simp [hA]
    · simp [hA]

/-! Claim-level theorems. -/

/-- C2 (code_bug): the spec states the rate value is read from the cell
immediately to the right of the rate-label cell, same row, for all row
numbers.  The code builds the right-cell index from only the first
character of the row part, so for the label cell A12 it reads B1 instead
of B12: on `exC2`, whose true neighbour B12 holds 1.1, the rate table
records the sentinel "No value". -/
theorem C2_getRightCellIndex_dropsRowDigits :
    getRightCellIndex "A12" = .ok "B1" ∧
    objGet exC2 "B12" = JsValue.num (.val (11 / 10)) ∧
    objGet exC2 "B1" = JsValue.undef ∧
    parseCurrencyRates exC2 = .ok [("USD", JsValue.str "No value")] :=
  ⟨rfl, rfl, rfl, rfl⟩

/-- C5 counterexample: on a sheet missing only the mandatory field
"Customer", structure validation throws the fixed message "Mandatory
field is missing", which does not name the absent field. -/
theorem C5_counterexample :
    exC5.find? (fun cell => valueEqStr cell.2 "Customer") = none ∧
    validateSheetStructure exC5 = .error "Mandatory field is missing" ∧
    strContains "Mandatory field is missing" "Customer" = false :=
  ⟨rfl, rfl, rfl⟩

/-- C5 (amended): when both anchor cells exist, A1 holds a string, and
some mandatory field name appears as no cell value, structure validation
fails — but with the fixed message "Mandatory field is missing", which
does not name the absent field.  (When "Status" itself is absent the
earlier anchor check fires first, which the anchor hypothesis excludes.) -/
theorem C5_validateSheetStructure_missingMandatory (file : File)
    (se ie : String × JsValue) (d : String)
    (hs : findStatusEntry file = some se)
    (hi : findInvoiceNoEntry file = some ie)
    (hA1 : objGet file "A1" = JsValue.str d)
    (f : String) (hf : f ∈ mandatoryFields)
    (habs : file.find? (fun cell => valueEqStr cell.2 f) = none) :
    validateSheetStructure file = .error "Mandatory field is missing" := by
  simp only [validateSheetStructure, hs, hi, hA1]
  exact checkMandatory_absent file mandatoryFields f hf habs

/-- C5 witness: the amended theorem applied to `exC5` with the absent
field "Customer". -/
theorem C5_witness :
    validateSheetStructure exC5 = .error "Mandatory field is missing" :=
  C5_validateSheetStructure_missingMandatory exC5
    ("B1", JsValue.str "Status") ("C1", JsValue.str "Invoice #") "Sep 2023"
    rfl rfl rfl "Customer" (by decide) rfl

/-- C6 (confirmed): when the first cell holding "Status" and the first
cell holding "Invoice #" lie on different rows (strict number inequality,
as the code compares them), `parseInvoicesData` fails with the
BrokenTableLayout error "Broken table" and produces no record list. -/
theorem C6_parseInvoicesData_brokenTable (file : File) (se ie : String × JsValue)
    (hs : findStatusEntry file = some se)
    (hi : findInvoiceNoEntry file = some ie)
    (hneq : jsNumEq (rowColFromString se.1).2 (rowColFromString ie.1).2 = false) :
    parseInvoicesData file = .error "Broken table" := by
  simp only [parseInvoicesData, hs, hi, hneq, Bool.false_eq_true, if_false]

/-- C6 witness: the theorem applied to `exW6`, whose anchors sit on rows 2
and 3. -/
theorem C6_witness : parseInvoicesData exW6 = .error "Broken table" :=
  C6_parseInvoicesData_brokenTable exW6
    ("B2", JsValue.str "Status") ("C3", JsValue.str "Invoice #") rfl rfl (by decide)

theorem enrichRecord_idempotent (currencyRates : Obj) (r : Obj) :
    enrichRecord currencyRates (enrichRecord currencyRates r)
      = enrichRecord currencyRates r := by
  have hIC : ∀ v, objGet (objSet r "Invoice Total" v) "Invoice Currency"
      = objGet r "Invoice Currency" :=
    fun v => objGet_objSet_ne _ _ _ _ (by decide)
  have hTP : ∀ v, objGet (objSet r "Invoice Total" v) "Total Price"
      = objGet r "Total Price" :=
    fun v => objGet_objSet_ne _ _ _ _ (by decide)
  by_cases hc : objGet currencyRates (jsToString (objGet r "Invoice Currency")) = JsValue.undef
  · have h1 : enrichRecord currencyRates r
        = objSet r "Invoice Total" (JsValue.str "No such currency defined") := by
      unfold enrichRecord
      rw [if_neg (fun hcond => hcond hc)]
    rw [h1]
    unfold enrichRecord
    rw [hIC, if_neg (fun hcond => hcond hc), objSet_objSet_self]
  · have h1 : enrichRecord currencyRates r
        = objSet r "Invoice Total"
            (JsValue.str (jsNumToStr
              (jsMul (parseIntStr (jsToString (objGet r "Total Price")))
                (parseFloatStr (jsToString (objGet currencyRates
                  (jsToString (objGet r "Invoice Currency")))))))) := by
      unfold enrichRecord
      rw [if_pos hc]
    rw [h1]
    unfold enrichRecord
    rw [hIC, hTP, if_pos hc, objSet_objSet_self]

/-- C7 (confirmed): the Total Calculator is idempotent.  The first pass
writes only the key "Invoice Total", which the computation never reads
(it reads "Invoice Currency" and "Total Price"), so a second pass with
the same rate table recomputes the same value and overwrites it in
place, yielding an identical record list. -/
theorem C7_calculateTotal_idempotent (invoicesData : List Obj) (currencyRates : Obj) :
    calculateTotalInvoiceCurrency
        (calculateTotalInvoiceCurrency invoicesData currencyRates) currencyRates
      = calculateTotalInvoiceCurrency invoicesData currencyRates := by
  unfold calculateTotalInvoiceCurrency
  rw [List.map_map]
  apply List.map_congr_left
  intro r _
  exact enrichRecord_idempotent currencyRates r

/-- C8 (confirmed): when the sheet passes structure validation and the
canonical form of the A1 invoicing date is not strictly equal to the
caller-supplied parameter, the request fails with the PeriodMismatch
error.  The `Except` sequencing of `postHandler` places this check before
`parseCurrencyRates` and `parseInvoicesData`, so no rate table and no
invoice record is built on this path. -/
theorem C8_postHandler_periodMismatch (file : File) (param : JsValue)
    (hval : validateSheetStructure file = .ok ())
    (hne : valueEqStr param (parseInvoicingDate (jsToString (objGet file "A1"))) = false) :
    postHandler file param
      = .error "Invoicing month param dont match file invoicing month" := by
  simp only [postHandler, hval, hne, Bool.false_eq_true, if_false]

/-- C8 witness: the theorem applied to the valid sheet `exW8` (A1 reads
"Sep 2023", canonicalized to "2023-09") and the parameter "2023-10". -/
theorem C8_witness :
    postHandler exW8 (JsValue.str "2023-10")
      = .error "Invoicing month param dont match file invoicing month" :=
  C8_postHandler_periodMismatch exW8 (JsValue.str "2023-10") rfl (by decide)

/-- C9 (confirmed): when the last rate-annotation cell carrying a given
label has a right-neighbour cell that is present but falsy (the number 0
or the empty string are the falsy present values), the rate table records
the sentinel "No value" for that label, exactly as when the neighbour is
absent. -/
theorem C9_parseCurrencyRates_falsyNeighbor (file : File) (k s : String)
    (R : Obj) (rk : String)
    (hok : parseCurrencyRates file = .ok R)
    (hlast : ((file.filter isRateCell).filter
        (fun e => rateLabelOf e == rateLabelOf (k, JsValue.str s))).getLast?
        = some (k, JsValue.str s))
    (hright : getRightCellIndex k = .ok rk)
    (hpresent : objGet file rk ≠ JsValue.undef)
    (hfalsy : truthy (objGet file rk) = false) :
    objGet R (rateLabelOf (k, JsValue.str s)) = JsValue.str "No value" := by
  unfold parseCurrencyRates at hok
  obtain ⟨rk2, hg2, hval⟩ :=
    ratesFold_lastMentioned file (rateLabelOf (k, JsValue.str s))
      (file.filter isRateCell) [] R (k, JsValue.str s) hlast rfl hok
  have hrk : rk2 = rk := by
    rw [hright] at hg2
    injection hg2 with hh
    exact hh.symm
  rw [hval, hrk, if_neg (by rw [hfalsy]; exact Bool.false_ne_true)]

/-- C9 witness: the theorem applied to `exW9`, whose single rate cell
"USD Rate" at A1 has the present-but-falsy neighbour B1 = 0. -/
theorem C9_witness :
    objGet [("USD", JsValue.str "No value")]
        (rateLabelOf ("A1", JsValue.str "USD Rate")) = JsValue.str "No value" :=
  C9_parseCurrencyRates_falsyNeighbor exW9 "A1" "USD Rate"
    [("USD", JsValue.str "No value")] "B1" rfl rfl rfl (by decide) rfl

/-- C10 (confirmed): for a record whose "Invoice Currency" stringifies to
a key present in the rate table but whose rate string does not parse as a
number (such as the sentinel "No value"), the Total Calculator writes the
string "NaN" into "Invoice Total" — the NaN produced by the
multiplication renders as "NaN", not as the "No such currency defined"
sentinel and not as a numeric result. -/
theorem C10_calculateTotal_unparseableRate (invoiceData : Obj) (currencyRates : Obj)
    (hpresent : objGet currencyRates
        (jsToString (objGet invoiceData "Invoice Currency")) ≠ JsValue.undef)
    (hnan : parseFloatStr (jsToString (objGet currencyRates
        (jsToString (objGet invoiceData "Invoice Currency")))) = JSNum.nan) :
    calculateTotalInvoiceCurrency [invoiceData] currencyRates
      = [objSet invoiceData "Invoice Total" (JsValue.str "NaN")] := by
  unfold calculateTotalInvoiceCurrency
  rw [List.map_singleton]
  unfold enrichRecord
  rw [if_pos hpresent, hnan, jsMul_nan_right]
  rfl

/-- C10 witness: the theorem applied to a record with currency "USD" and
a rate table mapping "USD" to the unparseable sentinel "No value". -/
theorem C10_witness :
    calculateTotalInvoiceCurrency
        [[("Invoice Currency", JsValue.str "USD"),
          ("Total Price", JsValue.num (.val 100))]]
        [("USD", JsValue.str "No value")]
      = [objSet [("Invoice Currency", JsValue.str "USD"),
          ("Total Price", JsValue.num (.val 100))]
          "Invoice Total" (JsValue.str "NaN")] :=
  C10_calculateTotal_unparseableRate
    [("Invoice Currency", JsValue.str "USD"), ("Total Price", JsValue.num (.val 100))]
    [("USD", JsValue.str "No value")] (by decide) (by decide)

/-- C1 counterexample: on `exC1` structure validation passes, exactly one
row (row 3) satisfies the admission conditions — through both its status
cell I3 and its invoice-number cell J3 — and the extractor emits two
records for it, not one: the processed row list is [3, 3]. -/
theorem C1_counterexample :
    validateSheetStructure exC1 = .ok () ∧
    rowsToProcess exC1 (some 'I') (some 'J') (JSNum.val 2)
      = [JSNum.val 3, JSNum.val 3] ∧
    (parseInvoicesData exC1).toOption.map List.length = some 2 :=
  ⟨rfl, rfl, rfl⟩

/-- C1 (amended): the entries the Record Extractor processes are exactly
the entries satisfying the flat union of the two admission conditions
(`specAdmitEntry`, the specification wording), and the extractor emits
exactly one record per admitting cell — so a row admitted through both
its status cell and its invoice-number cell yields two records, while a
row satisfying neither condition yields none. -/
theorem C1_parseInvoicesData_admission (file : File) (se ie : String × JsValue)
    (hs : findStatusEntry file = some se)
    (hi : findInvoiceNoEntry file = some ie)
    (hrow : jsNumEq (rowColFromString se.1).2 (rowColFromString ie.1).2 = true)
    (l : List Obj)
    (hok : parseInvoicesData file = .ok l) :
    entriesToProcess file (rowColFromString se.1).1 (rowColFromString ie.1).1
        (rowColFromString se.1).2
      = file.filter (specAdmitEntry (rowColFromString se.1).1 (rowColFromString ie.1).1
          (rowColFromString se.1).2)
    ∧ l.length = (entriesToProcess file (rowColFromString se.1).1
        (rowColFromString ie.1).1 (rowColFromString se.1).2).length := by
  constructor
  · unfold entriesToProcess
    exact List.filter_congr (fun e _ => admitEntry_eq_spec _ _ _ e)
  · simp only [parseInvoicesData, hs, hi, hrow, eq_self_iff_true, if_true] at hok
    have hlen := exceptMapM_ok_length _ _ _ hok
    rw [hlen]
    unfold rowsToProcess
    rw [List.length_map]

/-- C1 witness: the amended theorem applied to `exSmallFile`, whose single
admitted row 3 is admitted through its status cell only and yields one
record. -/
theorem C1_witness :
    entriesToProcess exSmallFile (some 'B') (some 'C') (JSNum.val 2)
      = exSmallFile.filter (specAdmitEntry (some 'B') (some 'C') (JSNum.val 2))
    ∧ ([exSmallRec] : List Obj).length
      = (entriesToProcess exSmallFile (some 'B') (some 'C') (JSNum.val 2)).length :=
  C1_parseInvoicesData_admission exSmallFile
    ("B2", JsValue.str "Status") ("C2", JsValue.str "Invoice #")
    rfl rfl (by decide) [exSmallRec] rfl

/-- C3 counterexample: on `exC3file` row 3 is admitted (through its
invoice-number cell) and the mandatory field "Status" fails validation on
it, yet the extractor aborts the whole batch with a TypeError instead of
emitting the record: the header row names column A "validationErrors",
the data row stores the truthy number 5 there, and the spread of that
value while appending the validation message throws. -/
theorem C3_counterexample :
    rowsToProcess exC3file (some 'B') (some 'C') (JSNum.val 2) = [JSNum.val 3] ∧
    zodCheck "Status" (objGet exC3file "B3") ≠ [] ∧
    parseInvoicesData exC3file = .error "TypeError" :=
  ⟨rfl, by decide, rfl⟩

/-- C3 (amended): provided no column of the layout renders to the
reserved record key "validationErrors", the claim holds: the batch never
aborts, every admitted row yields a record, a mandatory field that fails
validation at its unique column contributes every message
"field: reason" to that record's validationErrors list, and the raw cell
value is still stored under the column name. -/
theorem C3_parseInvoicesData_validationNonFatal
    (file : File) (se ie : String × JsValue)
    (hs : findStatusEntry file = some se)
    (hi : findInvoiceNoEntry file = some ie)
    (hrow : jsNumEq (rowColFromString se.1).2 (rowColFromString ie.1).2 = true)
    (hdr : String) (hhdr : hdr = jsNumToStr (rowColFromString se.1).2)
    (cols : Obj) (hcols : cols = mkColumns file hdr)
    (hks : ∀ c ∈ columnLetters, colKeyAt cols hdr c ≠ "validationErrors")
    (row : JSNum)
    (hr : row ∈ rowsToProcess file (rowColFromString se.1).1 (rowColFromString ie.1).1
            (rowColFromString se.1).2)
    (f : String) (c : Char)
    (hcname : objGet cols (String.mk [c] ++ hdr) = JsValue.str f)
    (huniq : columnLetters.filter (fun le => colKeyAt cols hdr le == f) = [c])
    (hmand : mandatoryFields.contains f = true)
    (hfail : zodCheck f (objGet file (String.mk [c] ++ jsNumToStr row)) ≠ []) :
    ∃ l, parseInvoicesData file = .ok l ∧
      l.length = (rowsToProcess file (rowColFromString se.1).1 (rowColFromString ie.1).1
          (rowColFromString se.1).2).length ∧
      ∃ r, buildRecord file cols hdr (jsNumToStr row) = .ok r ∧ r ∈ l ∧
        (∃ es, objGet r "validationErrors" = JsValue.arr es ∧
          ∀ m ∈ zodCheck f (objGet file (String.mk [c] ++ jsNumToStr row)),
            (f ++ ": " ++ m) ∈ es) ∧
        objGet r f = objGet file (String.mk [c] ++ jsNumToStr row) := by
  subst hhdr
  subst hcols
  have hbuild : ∀ ρ : JSNum, ∃ rr,
      buildRecord file (mkColumns file (jsNumToStr (rowColFromString se.1).2))
        (jsNumToStr (rowColFromString se.1).2) (jsNumToStr ρ) = .ok rr := by
    intro ρ
    obtain ⟨fin, hf, -, -, -⟩ :=
      buildFold_spec file (mkColumns file (jsNumToStr (rowColFromString se.1).2))
        (jsNumToStr (rowColFromString se.1).2) (jsNumToStr ρ) columnLetters
        [("validationErrors", JsValue.arr [])] [] hks rfl
    exact ⟨fin, by unfold buildRecord; exact hf⟩
  obtain ⟨l, hok⟩ :=
    exceptMapM_all_ok
      (fun ρ => buildRecord file (mkColumns file (jsNumToStr (rowColFromString se.1).2))
        (jsNumToStr (rowColFromString se.1).2) (jsNumToStr ρ))
      (rowsToProcess file (rowColFromString se.1).1 (rowColFromString ie.1).1
        (rowColFromString se.1).2)
      (fun ρ _ => hbuild ρ)
  have hokP : parseInvoicesData file = .ok l := by
    simp only [parseInvoicesData, hs, hi, hrow, eq_self_iff_true, if_true]
    exact hok
  refine ⟨l, hokP, exceptMapM_ok_length _ _ _ hok, ?_⟩
  obtain ⟨fin, hf, hveF, hlastF, -⟩ :=
    buildFold_spec file (mkColumns file (jsNumToStr (rowColFromString se.1).2))
      (jsNumToStr (rowColFromString se.1).2) (jsNumToStr row) columnLetters
      [("validationErrors", JsValue.arr [])] [] hks rfl
  have hbr : buildRecord file (mkColumns file (jsNumToStr (rowColFromString se.1).2))
      (jsNumToStr (rowColFromString se.1).2) (jsNumToStr row) = .ok fin := by
    unfold buildRecord
    exact hf
  have hmem : fin ∈ l := exceptMapM_ok_mem _ _ _ hok row hr fin hbr
  have hcmem : c ∈ columnLetters := by
    have h2 : c ∈ columnLetters.filter
        (fun le => colKeyAt (mkColumns file (jsNumToStr (rowColFromString se.1).2))
          (jsNumToStr (rowColFromString se.1).2) le == f) := by
      rw [huniq]
      exact List.mem_cons_self _ _
    exact List.mem_of_mem_filter h2
  have hck : colKeyAt (mkColumns file (jsNumToStr (rowColFromString se.1).2))
      (jsNumToStr (rowColFromString se.1).2) c = f := by
    simp only [colKeyAt, hcname, jsToString]
  have hfne : f ≠ "validationErrors" := fun hh => hks c hcmem (hck.trans hh)
  refine ⟨fin, hbr, hmem, ?_, ?_⟩
  · refine ⟨msgsOf file (mkColumns file (jsNumToStr (rowColFromString se.1).2))
      (jsNumToStr (rowColFromString se.1).2) (jsNumToStr row) columnLetters, ?_, ?_⟩
    · rw [hveF, List.nil_append]
    · intro m hm
      have hcolm : (f ++ ": " ++ m) ∈ colMsgs file
          (mkColumns file (jsNumToStr (rowColFromString se.1).2))
          (jsNumToStr (rowColFromString se.1).2) (jsNumToStr row) c := by
        simp only [colMsgs, hcname, hmand, if_true]
        exact List.mem_map_of_mem _ hm
      exact colMsgs_mem_msgsOf file _ _ _ columnLetters c hcmem _ hcolm
  · have hlw : lastWriteCol (mkColumns file (jsNumToStr (rowColFromString se.1).2))
        (jsNumToStr (rowColFromString se.1).2) columnLetters f = some c := by
      unfold lastWriteCol
      rw [huniq]
      rfl
    rw [hlastF f hfne, hlw]

/-- C3 witness: the amended theorem applied to `exW3`, where row 3 is
admitted through B3 = "Ready" and the mandatory field "Customer" (unique
column D) fails validation on the number 7. -/
theorem C3_witness :
    ∃ l, parseInvoicesData exW3 = .ok l ∧
      l.length = (rowsToProcess exW3 (some 'B') (some 'C') (JSNum.val 2)).length ∧
      ∃ r, buildRecord exW3 (mkColumns exW3 "2") "2" (jsNumToStr (JSNum.val 3)) = .ok r ∧
        r ∈ l ∧
        (∃ es, objGet r "validationErrors" = JsValue.arr es ∧
          ∀ m ∈ zodCheck "Customer"
              (objGet exW3 (String.mk ['D'] ++ jsNumToStr (JSNum.val 3))),
            ("Customer" ++ ": " ++ m) ∈ es) ∧
        objGet r "Customer" = objGet exW3 (String.mk ['D'] ++ jsNumToStr (JSNum.val 3)) :=
  C3_parseInvoicesData_validationNonFatal exW3
    ("B2", JsValue.str "Status") ("C2", JsValue.str "Invoice #")
    rfl rfl (by decide) "2" (by decide) (mkColumns exW3 "2") rfl
    (by decide) (JSNum.val 3) (by decide) "Customer" 'D'
    (by decide) (by decide) (by decide) (by decide)

/-- C4 counterexample: on `exC4` column Z has no header cell, yet the
record of the single admitted row carries the key "undefined" holding the
value of the headerless cell Z3 — the column contributed a key and a
value to the emitted record. -/
theorem C4_counterexample :
    objGet (mkColumns exC4 "2") "Z2" = JsValue.undef ∧
    objGet exC4 "Z3" = JsValue.str "leak" ∧
    (parseInvoicesData exC4).toOption.map (List.map (fun r => objGet r "undefined"))
      = some [JsValue.str "leak"] :=
  ⟨rfl, rfl, rfl⟩

/-- C4 (amended): columns with no (truthy) header value are excluded from
the Column Layout, and every key of an emitted record is either the
reserved "validationErrors" or the rendered column key of some alphabet
letter — where each headerless column renders to the single shared key
"undefined" (the stringified undefined column name) rather than a key of
its own.  Through that one reserved key a headerless column can still
contribute the cell value of the last headerless column to the record. -/
theorem C4_parseInvoicesData_headerlessColumns
    (file : File) (se ie : String × JsValue)
    (hs : findStatusEntry file = some se)
    (hi : findInvoiceNoEntry file = some ie)
    (hrow : jsNumEq (rowColFromString se.1).2 (rowColFromString ie.1).2 = true)
    (hdr : String) (hhdr : hdr = jsNumToStr (rowColFromString se.1).2)
    (l : List Obj) (hok : parseInvoicesData file = .ok l)
    (r : Obj) (hr : r ∈ l) :
    (∀ k ∈ objKeys r, k = "validationErrors" ∨
      ∃ c ∈ columnLetters, k = colKeyAt (mkColumns file hdr) hdr c) ∧
    (∀ c : Char, objGet (mkColumns file hdr) (String.mk [c] ++ hdr) = JsValue.undef →
      colKeyAt (mkColumns file hdr) hdr c = "undefined") ∧
    (∀ c : Char, truthy (objGet file (String.mk [c] ++ hdr)) = false →
      objGet (mkColumns file hdr) (String.mk [c] ++ hdr) = JsValue.undef) := by
  subst hhdr
  refine ⟨?_, ?_, ?_⟩
  · simp only [parseInvoicesData, hs, hi, hrow, eq_self_iff_true, if_true] at hok
    obtain ⟨ρ, hρ, hb⟩ := exceptMapM_ok_mem_rev _ _ _ hok r hr
    have hb2 : exceptFoldl
        (processColumn file (mkColumns file (jsNumToStr (rowColFromString se.1).2))
          (jsNumToStr (rowColFromString se.1).2) (jsNumToStr ρ))
        [("validationErrors", JsValue.arr [])] columnLetters = .ok r := by
      unfold buildRecord at hb
      exact hb
    intro k hk
    rcases buildFold_keys file _ _ _ columnLetters _ r hb2 k hk with h1 | h2 | ⟨c, hc, hkc⟩
    · left
      simpa [objKeys] using h1
    · exact Or.inl h2
    · exact Or.inr ⟨c, hc, hkc⟩
  · intro c hcu
    simp only [colKeyAt, hcu, jsToString]
  · intro c hcf
    exact mkColumns_falsy file _ c hcf

/-- C4 witness: the amended theorem applied to `exSmallFile` and its
single extracted record. -/
theorem C4_witness :
    (∀ k ∈ objKeys exSmallRec, k = "validationErrors" ∨
      ∃ c ∈ columnLetters, k = colKeyAt (mkColumns exSmallFile "2") "2" c) ∧
    (∀ c : Char, objGet (mkColumns exSmallFile "2") (String.mk [c] ++ "2") = JsValue.undef →
      colKeyAt (mkColumns exSmallFile "2") "2" c = "undefined") ∧
    (∀ c : Char, truthy (objGet exSmallFile (String.mk [c] ++ "2")) = false →
      objGet (mkColumns exSmallFile "2") (String.mk [c] ++ "2") = JsValue.undef) :=
  C4_parseInvoicesData_headerlessColumns exSmallFile
    ("B2", JsValue.str "Status") ("C2", JsValue.str "Invoice #")
    rfl rfl (by decide) "2" (by decide) [exSmallRec] rfl exSmallRec
    (List.mem_singleton.mpr rfl)
